import Mathlib

/-!
Verification of PyCalendarGen's special-day parsing and calendar-grid layout
core (PyCalendarGen.py), shallowly embedded in Lean 4.

Strings are modelled as `List Char`; Python string operations (`strip`,
`split`, `join`, `int()`) are embedded faithfully.  Python exceptions
(IndexError, KeyError, ValueError) are modelled with `Except PyErr`.
-/

namespace PyCalendarGen

abbrev Str := List Char

/-- Whitespace characters recognised by Python's no-argument `str.split()` /
`str.strip()` (space, tab, newline, carriage return, vertical tab, form feed). -/
def pyIsSpace (c : Char) : Bool :=
  c = ' ' || c = '\t' || c = '\n' || c = '\r' || c = '\x0b' || c = '\x0c'

/-- Python `s.strip(chars)`: drop characters in `chars` from both ends. -/
def pyStripWith (chars : List Char) (s : Str) : Str :=
  ((s.dropWhile (chars.contains ·)).reverse.dropWhile (chars.contains ·)).reverse

/-- Python `s.strip()` with no argument: strip whitespace from both ends. -/
def pyStrip (s : Str) : Str :=
  ((s.dropWhile pyIsSpace).reverse.dropWhile pyIsSpace).reverse

/-- In `loadDays`, each raw line is stripped with `line.strip(' \t\n\r')`. -/
def pyStripLine (s : Str) : Str :=
  pyStripWith [' ', '\t', '\n', '\r'] s

/-- Split a character list at every character satisfying `p`, keeping empty
segments (like Python `str.split(sep)` does).  The result is never `[]`. -/
def splitBy (p : Char → Bool) : Str → List Str
  | [] => [[]]
  | c :: cs =>
    if p c then [] :: splitBy p cs
    else
      match splitBy p cs with
      | [] => [[c]]
      | t :: ts => (c :: t) :: ts

/-- Python `s.split(sep)` for a single-character separator `sep`. -/
def pySplit (sep : Char) (s : Str) : List Str :=
  splitBy (· = sep) s

/-- Python `s.split()` with no argument: split on whitespace runs, dropping
empty segments. -/
def pySplitWS (s : Str) : List Str :=
  (splitBy pyIsSpace s).filter (· ≠ [])

/-- Python `' '.join(parts)`. -/
def pyJoinSpace (parts : List Str) : Str :=
  List.intercalate [' '] parts

/-- Accumulating decimal-digit evaluator used by `digitsVal`. -/
def digitsValGo (acc : Nat) : Str → Option Nat
  | [] => some acc
  | c :: cs =>
    if c.isDigit then digitsValGo (acc * 10 + (c.toNat - 48)) cs else none

/-- Value of a nonempty all-digit string; `none` otherwise. -/
def digitsVal : Str → Option Nat
  | [] => none
  | s => digitsValGo 0 s

/-- Python `int(s)` for a base-10 string: surrounding whitespace allowed, then
an optional single sign, then one or more decimal digits. -/
def pyInt (s : Str) : Option Int :=
  match pyStrip s with
  | '-' :: ds => (digitsVal ds).map (fun v => -(v : Int))
  | '+' :: ds => (digitsVal ds).map (fun v => (v : Int))
  | ds => (digitsVal ds).map (fun v => (v : Int))

/-- Python exceptions that the embedded core can raise. -/
inductive PyErr where
  /-- IndexError: sequence index out of range (e.g. `line[0]` on an empty
  line, or an out-of-range list index). -/
  | indexError
  /-- ValueError: failed `int()` conversion or tuple-unpack mismatch. -/
  | valueError
  /-- KeyError on the resolver call table `funs[<letter>]` (unknown date code). -/
  | keyErrorDate (c : Char)
  /-- KeyError on `day_table[what]` (unknown astronomical sub-code). -/
  | keyErrorAstro (s : Str)
  /-- KeyError on `day_table[what][year]` (year missing from the table). -/
  | keyErrorYear (y : Int)
  deriving DecidableEq, Repr

/-- Python `int(s)` raising ValueError on failure. -/
def pyIntE (s : Str) : Except PyErr Int :=
  match pyInt s with
  | some n => .ok n
  | none => .error .valueError

/-- Monadic map over a list in `Except`, stopping (like an exception
propagating out of `loadDays`'s loop) at the first error. -/
def exMapM (f : α → Except PyErr β) : List α → Except PyErr (List β)
  | [] => .ok []
  | a :: as => do
    let b ← f a
    let bs ← exMapM f as
    .ok (b :: bs)

/-- A special-day entry as built by `loadDays`:
`[(int(date[1]), int(date[0])), int(style), part]`, i.e. the date is stored
as a `(month, day)` pair. -/
structure Entry where
  date : Int × Int
  style : Int
  text : Str
  deriving DecidableEq, Repr

/-- The value bound to `date` in `loadDays` before the per-part appends: either
the list of strings from `day[0].split('.')` (of which indices 0 and 1 are
used), or the `(day, month)` integer pair returned by a resolver. -/
inductive DateVal where
  | strs (d0 d1 : Str)
  | ints (d m : Int)
  deriving DecidableEq, Repr

/-- Evaluation of `(int(date[1]), int(date[0]))` at entry-append time.
For resolver results the components are already integers. -/
def dateToPair : DateVal → Except PyErr (Int × Int)
  | .strs d0 d1 => do
    let m ← pyIntE d1
    let d ← pyIntE d0
    .ok (m, d)
  | .ints d m => .ok (m, d)

/-- One iteration of `loadDays`'s inner loop over `what.split('/')`: strip the
part, default style 0, and if the part splits on `:` into more than one piece,
unpack `style, part = part.split(':')` (a ValueError if there are three or
more pieces); then build the entry, converting the date strings and the style
with `int()`. -/
def parsePart (dv : DateVal) (part0 : Str) : Except PyErr Entry := do
  let part := pyStrip part0
  match pySplit ':' part with
  | [t] => do
    let md ← dateToPair dv
    .ok ⟨md, 0, t⟩
  | [s, p] => do
    let md ← dateToPair dv
    let st ← pyIntE s
    .ok ⟨md, st, p⟩
  | _ => .error .valueError

/-- One iteration of `loadDays`'s outer loop, for a single raw line of the
annotation file: strip `' \t\n\r'`; `line[0] == '#'` skips comments (and
raises IndexError on an empty stripped line); whitespace-tokenize; dispatch on
the first token (literal `DD.MM` versus resolver call table); then process the
payload parts.  Returns the entries this line appends, in order. -/
def parseLine (funs : Char → Option (Str → Except PyErr (Int × Int)))
    (raw : Str) : Except PyErr (List Entry) :=
  let line := pyStripLine raw
  match line with
  | [] => .error .indexError
  | c :: _ =>
    if c = '#' then .ok []
    else
      match pySplitWS line with
      | [] => .error .indexError
      | tok :: rest => do
        let dv ←
          match pySplit '.' tok with
          | d0 :: d1 :: _ => Except.ok (DateVal.strs d0 d1)
          | _ =>
            match tok with
            | [] => Except.error PyErr.indexError
            | code :: suffix =>
              match funs code with
              | none => Except.error (PyErr.keyErrorDate code)
              | some f => (f suffix).map (fun dm => DateVal.ints dm.1 dm.2)
        let what := pyJoinSpace rest
        exMapM (parsePart dv) (pySplit '/' what)

/-- Embedding of `loadDays(funs)`.  `file` is `none` when opening the
annotation file raises IOError (the function then returns the empty list), and
`some lines` gives the file's lines otherwise. -/
def loadDays (file : Option (List Str))
    (funs : Char → Option (Str → Except PyErr (Int × Int))) :
    Except PyErr (List Entry) :=
  match file with
  | none => .ok []
  | some lines => (exMapM (parseLine funs) lines).map List.flatten

/-- Gregorian leap-year test, as in Python's `calendar.isleap`. -/
def isleap (y : Int) : Bool :=
  y.emod 4 = 0 && (y.emod 100 ≠ 0 || y.emod 400 = 0)

/-- Length of month `m` (1..12) of year `y`, as in Python's
`calendar.monthrange`; 0 for an invalid month number. -/
def daysInMonth (y : Int) (m : Nat) : Nat :=
  match m with
  | 1 => 31
  | 2 => if isleap y then 29 else 28
  | 3 => 31
  | 4 => 30
  | 5 => 31
  | 6 => 30
  | 7 => 31
  | 8 => 31
  | 9 => 30
  | 10 => 31
  | 11 => 30
  | 12 => 31
  | _ => 0

/-- Days since the civil epoch 1970-01-01 of the proleptic Gregorian date
`(y, m, d)` (floored divisions throughout). -/
def daysFromCivil (y : Int) (m d : Nat) : Int :=
  let y2 : Int := if m ≤ 2 then y - 1 else y
  let era : Int := y2.fdiv 400
  let yoe : Int := y2 - era * 400
  let mp : Int := if 2 < m then (m : Int) - 3 else (m : Int) + 9
  let doy : Int := (153 * mp + 2).fdiv 5 + (d : Int) - 1
  let doe : Int := yoe * 365 + yoe.fdiv 4 - yoe.fdiv 100 + doy
  era * 146097 + doe - 719468

/-- Python `calendar.weekday(y, m, d)`: 0 = Monday .. 6 = Sunday
(1970-01-01 was a Thursday, weekday 3). -/
def weekday (y : Int) (m d : Nat) : Int :=
  (daysFromCivil y m d + 3).emod 7

/-- The flat day sequence underlying `calendar.monthcalendar` with the default
`firstweekday = 0` (Monday): `days_before` zeros, then the day numbers
1..ndays, then `days_after` zeros completing the final week. -/
def monthDays (y : Int) (m : Nat) : List Nat :=
  let day1 := weekday y m 1
  let ndays := daysInMonth y m
  List.replicate (day1.emod 7).toNat 0 ++
    (List.range ndays).map (· + 1) ++
    List.replicate (((0 : Int) - day1 - ndays).emod 7).toNat 0

/-- Fuelled chunking of a list into rows of 7. -/
def chunkGo : Nat → List Nat → List (List Nat)
  | 0, _ => []
  | _, [] => []
  | fuel + 1, l => l.take 7 :: chunkGo fuel (l.drop 7)

/-- Python `calendar.monthcalendar(y, m)`: the month's days chunked into
weeks of 7, with 0 in the padding cells. -/
def monthcalendar (y : Int) (m : Nat) : List (List Nat) :=
  chunkGo (monthDays y m).length (monthDays y m)

/-- Colors used by the day-number and item styles. -/
inductive PColor where
  | black
  | red
  | cyan
  deriving DecidableEq, Repr

/-- A row of `colortable`: color plus italic/bold flags. -/
structure StyleDef where
  color : PColor
  italic : Bool
  bold : Bool
  deriving DecidableEq, Repr

/-- The `colortable` from the source: codes 0..3. -/
def colortable : List StyleDef :=
  [⟨.black, false, false⟩, ⟨.red, false, false⟩,
   ⟨.cyan, false, false⟩, ⟨.black, true, false⟩]

/-- Python list indexing `l[i]`: negative indices count from the end, and an
index out of range raises IndexError. -/
def pyListGet (l : List α) (i : Int) : Except PyErr α :=
  if h : 0 ≤ i ∧ i.toNat < l.length then .ok (l.get ⟨i.toNat, h.2⟩)
  else if h2 : i < 0 ∧ 0 ≤ i + l.length ∧ (i + l.length).toNat < l.length then
    .ok (l.get ⟨(i + l.length).toNat, h2.2.2⟩)
  else .error .indexError

/-- A rendered item (`Paragraph(txt, styles[rd[1]])`): the text after the
italic/bold markup wrapping, plus the style's text color. -/
structure RItem where
  text : Str
  color : PColor
  deriving DecidableEq, Repr

/-- Wrap `txt` in the markup tags the source adds for italic/bold styles. -/
def markup (st : StyleDef) (txt : Str) : Str :=
  let t1 := if st.italic then "<i>".toList ++ txt ++ "</i>".toList else txt
  if st.bold then "<b>".toList ++ t1 ++ "</b>".toList else t1

/-- The `for rd in reddays` loop of `drawGrid` for one day cell: collect the
items whose date matches `(month, day)`, setting `isred` when a matching entry
has style code 1, and looking the style up in `colortable` (an IndexError for
style codes outside the Python index range of the 4-entry table). -/
def collectItems (month day : Int) : List Entry → Except PyErr (Bool × List RItem)
  | [] => .ok (false, [])
  | rd :: rds =>
    if rd.date = (month, day) then do
      let st ← pyListGet colortable rd.style
      let acc ← collectItems month day rds
      .ok (acc.1 || rd.style == 1, ⟨markup st rd.text, st.color⟩ :: acc.2)
    else collectItems month day rds

/-- A day cell as painted by `drawGrid`: its day number, the color used for
the day number, and its stacked items. -/
structure Cell where
  day : Nat
  numColor : PColor
  items : List RItem
  deriving DecidableEq, Repr

/-- The body of `drawGrid`'s per-day loop for one value of `day` from the
month calendar: padding cells (`day = 0`) are skipped entirely (no box, no
number, no items); real days collect their items and pick the day-number
color — `colortable[1]` (red) when `isred` or the weekday is 6 (Sunday),
`colortable[0]` (black) otherwise. -/
def renderDay (y : Int) (month : Nat) (reddays : List Entry) (day : Nat) :
    Except PyErr (Option Cell) :=
  if 0 < day then do
    let acc ← collectItems (month : Int) (day : Int) reddays
    let st ← if acc.1 || weekday y month day == 6 then pyListGet colortable 1
             else pyListGet colortable 0
    .ok (some ⟨day, st.color, acc.2⟩)
  else .ok none

/-- All cells of the month grid, in `drawGrid`'s traversal order (weeks
flattened): `none` for padding positions, `some cell` for day cells. -/
def gridCells (y : Int) (month : Nat) (reddays : List Entry) :
    Except PyErr (List (Option Cell)) :=
  exMapM (renderDay y month reddays) (monthcalendar y month).flatten

/-- A proleptic Gregorian calendar date. -/
structure Date where
  y : Int
  m : Nat
  d : Nat
  deriving DecidableEq, Repr

/-- The calendar day after `dt`, rolling over month and year ends. -/
def nextDay (dt : Date) : Date :=
  if dt.d < daysInMonth dt.y dt.m then ⟨dt.y, dt.m, dt.d + 1⟩
  else if dt.m < 12 then ⟨dt.y, dt.m + 1, 1⟩
  else ⟨dt.y + 1, 1, 1⟩

/-- The calendar day before `dt`, rolling under month and year starts. -/
def prevDay (dt : Date) : Date :=
  if 1 < dt.d then ⟨dt.y, dt.m, dt.d - 1⟩
  else if 1 < dt.m then ⟨dt.y, dt.m - 1, daysInMonth dt.y (dt.m - 1)⟩
  else ⟨dt.y - 1, 12, 31⟩

/-- Modelled from the spec: the day arithmetic of the external
`mx.DateTime` `RelativeDateTime(days=n)` addition — shift a date by exactly
`n` days, rolling over month and year boundaries in both directions. -/
def addDays (dt : Date) (n : Int) : Date :=
  if 0 ≤ n then nextDay^[n.toNat] dt else prevDay^[(-n).toNat] dt

/-- Modelled from the spec: the external `mx.DateTime.Feasts.EasterSunday`,
i.e. Western (Gregorian) Easter Sunday of the given year via the standard
anonymous-Gregorian computus. -/
def easterSunday (y : Int) : Date :=
  let a := y.emod 19
  let b := y.fdiv 100
  let c := y.emod 100
  let d := b.fdiv 4
  let e := b.emod 4
  let f := (b + 8).fdiv 25
  let g := (b - f + 1).fdiv 3
  let h := (19 * a + b - d - g + 15).emod 30
  let i := c.fdiv 4
  let k := c.emod 4
  let l := (32 + 2 * e + 2 * i - h - k).emod 7
  let m := (a + 11 * h + 22 * l).fdiv 451
  let mo := (h + l - 7 * m + 114).fdiv 31
  let da := (h + l - 7 * m + 114).emod 31 + 1
  ⟨y, mo.toNat, da.toNat⟩

/-- The `easter(diff)` resolver closure from `drawGrid`: Easter Sunday of
`year` plus `int(diff)` days, returned as a `(day, month)` pair
(`d.tuple()[2], d.tuple()[1]`). -/
def easter (year : Int) (diff : Str) : Except PyErr (Int × Int) := do
  let n ← pyIntE diff
  let dt := addDays (easterSunday year) n
  .ok ((dt.d : Int), (dt.m : Int))

/-- Association-list lookup modelling a Python dict (literal keys, no
duplicates in our tables). -/
def assoc [DecidableEq α] (k : α) : List (α × β) → Option β
  | [] => none
  | (a, b) :: t => if a = k then some b else assoc k t

/-- The `day_table` dict from the source: `(day, month)` per year for the
four astronomical events. -/
def day_table : List (Str × List (Int × (Int × Int))) :=
  [("se".toList,
    [(2005, (20, 3)), (2006, (20, 3)), (2007, (21, 3)), (2008, (20, 3)),
     (2009, (20, 3)), (2010, (20, 3)), (2011, (20, 3)), (2012, (20, 3)),
     (2013, (20, 3)), (2014, (20, 3)), (2015, (20, 3)), (2016, (20, 3)),
     (2017, (20, 3)), (2018, (20, 3))]),
   ("ss".toList,
    [(2005, (21, 6)), (2006, (21, 6)), (2007, (21, 6)), (2008, (21, 6)),
     (2009, (21, 6)), (2010, (21, 6)), (2011, (21, 6)), (2012, (20, 6)),
     (2013, (21, 6)), (2014, (21, 6)), (2015, (21, 6)), (2016, (20, 6)),
     (2017, (21, 6)), (2018, (21, 6))]),
   ("ae".toList,
    [(2005, (22, 9)), (2006, (23, 9)), (2007, (23, 9)), (2008, (22, 9)),
     (2009, (22, 9)), (2010, (23, 9)), (2011, (23, 9)), (2012, (22, 9)),
     (2013, (22, 9)), (2014, (23, 9)), (2015, (23, 9)), (2016, (22, 9)),
     (2017, (22, 9)), (2018, (23, 9))]),
   ("ws".toList,
    [(2005, (21, 12)), (2006, (22, 12)), (2007, (22, 12)), (2008, (21, 12)),
     (2009, (21, 12)), (2010, (21, 12)), (2011, (22, 12)), (2012, (21, 12)),
     (2013, (21, 12)), (2014, (21, 12)), (2015, (22, 12)), (2016, (21, 12)),
     (2017, (21, 12)), (2018, (21, 12))])]

/-- The `table(what)` resolver closure from `drawGrid`:
`day_table[what][year]`, with a KeyError for an unknown sub-code and a
KeyError for a year absent from the event's per-year dict. -/
def table (year : Int) (what : Str) : Except PyErr (Int × Int) :=
  match assoc what day_table with
  | none => .error (.keyErrorAstro what)
  | some tbl =>
    match assoc year tbl with
    | none => .error (.keyErrorYear year)
    | some dm => .ok dm

/-- The call table `{"E": easter, "T": table}` passed to `loadDays` by
`drawGrid`. -/
def defaultFuns (year : Int) (c : Char) :
    Option (Str → Except PyErr (Int × Int)) :=
  if c = 'E' then some (easter year)
  else if c = 'T' then some (table year)
  else none

/-- The month-range loops of `run`: for `end < start`, months `start..12` of
`year` then `1..end` of `year + 1`; otherwise months `start..end` of `year`. -/
def expandRange (year st en : Int) : List (Int × Int) :=
  if en < st then
    ((List.range (12 - st + 1).toNat).map
        (fun m : Nat => (year, st + (m : Int)))) ++
      ((List.range en.toNat).map (fun m : Nat => (year + 1, 1 + (m : Int))))
  else
    (List.range (en - st + 1).toNat).map
      (fun m : Nat => (year, st + (m : Int)))

/-- The `(year, month)` pages `run` renders for month argument `monthArg`:
a `MM-NN` string expands through `expandRange`, a bare month renders a single
page. -/
def monthPages (year : Int) (monthArg : Str) : Except PyErr (List (Int × Int)) :=
  match pySplit '-' monthArg with
  | s0 :: s1 :: _ => do
    let st ← pyIntE s0
    let en ← pyIntE s1
    .ok (expandRange year st en)
  | _ => do
    let m ← pyIntE monthArg
    .ok [(year, m)]

/-- Decidable equality for `Except`, so concrete runs can be checked by
`decide`. -/
def exceptDecEq [DecidableEq ε] [DecidableEq α] : DecidableEq (Except ε α) :=
  fun x y =>
    match x, y with
    | .ok a, .ok b =>
      if h : a = b then .isTrue (by rw [h])
      else .isFalse (fun hh => h (Except.ok.inj hh))
    | .ok _, .error _ => .isFalse (fun hh => Except.noConfusion hh)
    | .error _, .ok _ => .isFalse (fun hh => Except.noConfusion hh)
    | .error e, .error f =>
      if h : e = f then .isTrue (by rw [h])
      else .isFalse (fun hh => h (Except.error.inj hh))

instance [DecidableEq ε] [DecidableEq α] : DecidableEq (Except ε α) :=
  exceptDecEq

/-- An empty resolver call table (no date codes registered). -/
def noFuns : Char → Option (Str → Except PyErr (Int × Int)) := fun _ => none

/-- The expected cell list for February 2024 (leap year, 29 days; the 1st is
a Thursday so three leading and three trailing padding cells). -/
def febCells : List (Option Cell) :=
  List.replicate 3 none ++
    (List.range 29).map (fun i =>
      some ⟨i + 1,
        if weekday 2024 2 (i + 1) == 6 then PColor.red else PColor.black,
        []⟩) ++
    List.replicate 3 none

theorem exBind_ok (a : α) (f : α → Except PyErr β) :
    (Except.ok a >>= f) = f a := rfl

theorem exBind_error (e : PyErr) (f : α → Except PyErr β) :
    ((Except.error e : Except PyErr α) >>= f) = Except.error e := rfl

theorem exMapM_cons_ok {f : α → Except PyErr β} {a : α} {l : List α}
    {res : List β} (h : exMapM f (a :: l) = .ok res) :
    ∃ b bs, f a = .ok b ∧ exMapM f l = .ok bs ∧ res = b :: bs := by
  cases hf : f a with
  | error e => rw [exMapM, hf, exBind_error] at h; exact absurd h (by simp)
  | ok b =>
    cases hl : exMapM f l with
    | error e => rw [exMapM, hf, exBind_ok, hl, exBind_error] at h
                 exact absurd h (by simp)
    | ok bs =>
      rw [exMapM, hf, exBind_ok, hl, exBind_ok] at h
      exact ⟨b, bs, rfl, rfl, (Except.ok.inj h).symm⟩

theorem exMapM_ok_forall₂ {f : α → Except PyErr β} :
    ∀ {l : List α} {res : List β}, exMapM f l = .ok res →
      List.Forall₂ (fun a b => f a = .ok b) l res := by
  intro l
  induction l with
  | nil => intro res h; cases Except.ok.inj h; exact List.Forall₂.nil
  | cons a as ih =>
    intro res h
    obtain ⟨b, bs, hf, hl, hres⟩ := exMapM_cons_ok h
    subst hres
    exact List.Forall₂.cons hf (ih hl)

theorem exMapM_mem_ok {f : α → Except PyErr β} {l : List α} {res : List β}
    (h : exMapM f l = .ok res) {b : β} (hb : b ∈ res) :
    ∃ a ∈ l, f a = .ok b := by
  induction l generalizing res with
  | nil => cases Except.ok.inj h; simp at hb
  | cons a as ih =>
    obtain ⟨b0, bs, hf, hl, hres⟩ := exMapM_cons_ok h
    subst hres
    rcases List.mem_cons.mp hb with hb | hb
    · exact ⟨a, List.mem_cons_self a as, hb ▸ hf⟩
    · obtain ⟨a2, ha2, hfa2⟩ := ih hl hb
      exact ⟨a2, List.mem_cons_of_mem a ha2, hfa2⟩

theorem exMapM_ok_of_mem {f : α → Except PyErr β} {l : List α} {res : List β}
    (h : exMapM f l = .ok res) {a : α} (ha : a ∈ l) :
    ∃ b, f a = .ok b := by
  induction l generalizing res with
  | nil => simp at ha
  | cons a0 as ih =>
    obtain ⟨b0, bs, hf, hl, _⟩ := exMapM_cons_ok h
    rcases List.mem_cons.mp ha with ha | ha
    · exact ⟨b0, ha ▸ hf⟩
    · exact ih hl ha

theorem exMapM_append_ok {f : α → Except PyErr β} :
    ∀ {l₁ : List α} {l₂ : List α} {res : List β},
      exMapM f (l₁ ++ l₂) = .ok res →
      ∃ r₁ r₂, exMapM f l₁ = .ok r₁ ∧ exMapM f l₂ = .ok r₂ ∧ res = r₁ ++ r₂ := by
  intro l₁
  induction l₁ with
  | nil => intro l₂ res h; exact ⟨[], res, rfl, h, rfl⟩
  | cons a as ih =>
    intro l₂ res h
    rw [List.cons_append] at h
    obtain ⟨b, bs, hf, hl, hres⟩ := exMapM_cons_ok h
    obtain ⟨r₁, r₂, h₁, h₂, hbs⟩ := ih hl
    refine ⟨b :: r₁, r₂, ?_, h₂, by simp [hres, hbs]⟩
    rw [exMapM, hf, exBind_ok, h₁, exBind_ok]

theorem dateToPair_ok_or_valueError (dv : DateVal) :
    (∃ md, dateToPair dv = .ok md) ∨ dateToPair dv = .error .valueError := by
  cases dv with
  | ints d m => exact .inl ⟨(m, d), rfl⟩
  | strs d0 d1 =>
    rw [dateToPair]
    cases h1 : pyIntE d1 with
    | error e =>
      cases h1e : pyInt d1 with
      | some v => rw [pyIntE, h1e] at h1; exact absurd h1 (by simp)
      | none =>
        rw [pyIntE, h1e] at h1
        cases Except.error.inj h1
        exact .inr (by rw [exBind_error])
    | ok m =>
      rw [exBind_ok]
      cases h0 : pyIntE d0 with
      | error e =>
        cases h0e : pyInt d0 with
        | some v => rw [pyIntE, h0e] at h0; exact absurd h0 (by simp)
        | none =>
          rw [pyIntE, h0e] at h0
          cases Except.error.inj h0
          exact .inr (by rw [exBind_error])
      | ok d => exact .inl ⟨(m, d), by rw [exBind_ok]⟩

theorem parsePart_one {dv : DateVal} {md : Int × Int}
    (hdv : dateToPair dv = .ok md) {part t : Str}
    (hsplit : pySplit ':' (pyStrip part) = [t]) :
    parsePart dv part = .ok ⟨md, 0, t⟩ := by
  rw [parsePart, hsplit, hdv]
  rfl

theorem parsePart_two {dv : DateVal} {md : Int × Int}
    (hdv : dateToPair dv = .ok md) {part s p : Str} {n : Int}
    (hsplit : pySplit ':' (pyStrip part) = [s, p]) (hn : pyInt s = some n) :
    parsePart dv part = .ok ⟨md, n, p⟩ := by
  have hse : pyIntE s = .ok n := by rw [pyIntE, hn]
  rw [parsePart, hsplit, hdv]
  show (pyIntE s).bind _ = _
  rw [hse]
  rfl

theorem parsePart_two_badstyle {dv : DateVal} {part s p : Str}
    (hsplit : pySplit ':' (pyStrip part) = [s, p]) (hn : pyInt s = none) :
    parsePart dv part = .error .valueError := by
  have hse : pyIntE s = .error .valueError := by rw [pyIntE, hn]
  rw [parsePart, hsplit]
  rcases dateToPair_ok_or_valueError dv with ⟨md, hdv⟩ | hdv
  · rw [hdv]
    show (pyIntE s).bind _ = _
    rw [hse]
    rfl
  · rw [hdv]
    rfl

theorem parsePart_many {dv : DateVal} {part s p q : Str} {r : List Str}
    (hsplit : pySplit ':' (pyStrip part) = s :: p :: q :: r) :
    parsePart dv part = .error .valueError := by
  rw [parsePart, hsplit]

theorem parsePart_ok_date {dv : DateVal} {md : Int × Int}
    (hdv : dateToPair dv = .ok md) {part : Str} {e : Entry}
    (h : parsePart dv part = .ok e) : e.date = md := by
  rw [parsePart] at h
  rcases hs : pySplit ':' (pyStrip part) with _ | ⟨t, _ | ⟨p, _ | _⟩⟩ <;>
    rw [hs] at h
  · exact absurd h (by simp)
  · rw [hdv] at h
    cases Except.ok.inj h
    rfl
  · rw [hdv] at h
    replace h : (pyIntE t).bind
        (fun st => Except.ok (⟨md, st, p⟩ : Entry)) = .ok e := h
    cases hn : pyIntE t with
    | error e2 =>
      rw [hn] at h
      replace h : (Except.error e2 : Except PyErr Entry) = .ok e := h
      exact absurd h (by simp)
    | ok n =>
      rw [hn] at h
      replace h : Except.ok (⟨md, n, p⟩ : Entry) = .ok e := h
      cases Except.ok.inj h
      rfl
  · exact absurd h (by simp)

theorem pyListGet_colortable_one :
    pyListGet colortable 1 = .ok ⟨PColor.red, false, false⟩ := by decide

theorem pyListGet_colortable_zero :
    pyListGet colortable 0 = .ok ⟨PColor.black, false, false⟩ := by decide

theorem collectItems_isred (mo da : Int) :
    ∀ (l : List Entry) (b : Bool) (its : List RItem),
      collectItems mo da l = .ok (b, its) →
      (b = true ↔ ∃ e ∈ l, e.date = (mo, da) ∧ e.style = 1) := by
  intro l
  induction l with
  | nil =>
    intro b its h
    rw [collectItems] at h
    cases Except.ok.inj h
    simp
  | cons rd rds ih =>
    intro b its h
    rw [collectItems] at h
    by_cases hdate : rd.date = (mo, da)
    · rw [if_pos hdate] at h
      cases hst : pyListGet colortable rd.style with
      | error e => rw [hst, exBind_error] at h; exact absurd h (by simp)
      | ok st =>
        rw [hst, exBind_ok] at h
        cases hacc : collectItems mo da rds with
        | error e => rw [hacc, exBind_error] at h; exact absurd h (by simp)
        | ok acc =>
          rw [hacc, exBind_ok] at h
          obtain ⟨hb, _⟩ := Prod.mk.injEq .. ▸ Except.ok.inj h
          subst hb
          have hiff := ih acc.1 acc.2 (by rw [hacc])
          constructor
          · intro hor
            rcases Bool.or_eq_true_iff.mp hor with h1 | h1
            · obtain ⟨e, he, hed, hes⟩ := hiff.mp h1
              exact ⟨e, List.mem_cons_of_mem rd he, hed, hes⟩
            · exact ⟨rd, List.mem_cons_self rd rds, hdate, beq_iff_eq.mp h1⟩
          · rintro ⟨e, he, hed, hes⟩
            rcases List.mem_cons.mp he with he | he
            · subst he
              exact Bool.or_eq_true_iff.mpr (.inr (beq_iff_eq.mpr hes))
            · exact Bool.or_eq_true_iff.mpr (.inl (hiff.mpr ⟨e, he, hed, hes⟩))
    · rw [if_neg hdate] at h
      have hiff := ih b its h
      rw [hiff]
      constructor
      · rintro ⟨e, he, hed, hes⟩
        exact ⟨e, List.mem_cons_of_mem rd he, hed, hes⟩
      · rintro ⟨e, he, hed, hes⟩
        rcases List.mem_cons.mp he with he | he
        · exact absurd (he ▸ hed) hdate
        · exact ⟨e, he, hed, hes⟩

theorem renderDay_zero (y : Int) (m : Nat) (rd : List Entry) :
    renderDay y m rd 0 = .ok none := rfl

theorem renderDay_some_inv {y : Int} {m : Nat} {rd : List Entry} {day : Nat}
    {c : Cell} (h : renderDay y m rd day = .ok (some c)) :
    0 < day ∧ c.day = day ∧
      ∃ b, collectItems (m : Int) (day : Int) rd = .ok (b, c.items) ∧
        c.numColor =
          (if (b || weekday y m day == 6) = true then PColor.red
           else PColor.black) := by
  by_cases hday : 0 < day
  · rw [renderDay, if_pos hday] at h
    cases hacc : collectItems (m : Int) (day : Int) rd with
    | error e =>
      rw [hacc, exBind_error] at h
      exact absurd h (by simp)
    | ok acc =>
      rw [hacc, exBind_ok] at h
      by_cases hcond : (acc.1 || weekday y m day == 6) = true
      · rw [if_pos hcond, pyListGet_colortable_one, exBind_ok] at h
        cases Except.ok.inj h
        exact ⟨hday, rfl, acc.1, rfl, by rw [if_pos hcond]⟩
      · rw [if_neg hcond, pyListGet_colortable_zero, exBind_ok] at h
        cases Except.ok.inj h
        exact ⟨hday, rfl, acc.1, rfl, by rw [if_neg hcond]⟩
  · rw [renderDay, if_neg hday] at h
    exact absurd (Except.ok.inj h) (by simp)

theorem renderDay_pos_ok {y : Int} {m : Nat} {rd : List Entry} {day : Nat}
    (hday : 0 < day) {oc : Option Cell}
    (h : renderDay y m rd day = .ok oc) :
    ∃ c, oc = some c ∧ c.day = day := by
  cases oc with
  | none =>
    rw [renderDay, if_pos hday] at h
    cases hacc : collectItems (m : Int) (day : Int) rd with
    | error e => rw [hacc, exBind_error] at h; exact absurd h (by simp)
    | ok acc =>
      rw [hacc, exBind_ok] at h
      by_cases hcond : (acc.1 || weekday y m day == 6) = true
      · rw [if_pos hcond, pyListGet_colortable_one, exBind_ok] at h
        exact absurd (Except.ok.inj h) (by simp)
      · rw [if_neg hcond, pyListGet_colortable_zero, exBind_ok] at h
        exact absurd (Except.ok.inj h) (by simp)
  | some c => exact ⟨c, rfl, ((renderDay_some_inv h).2.1)⟩

theorem exMapM_renderDay_replicate0 (y : Int) (m : Nat) (rd : List Entry) :
    ∀ k, exMapM (renderDay y m rd) (List.replicate k 0) =
      .ok (List.replicate k none) := by
  intro k
  induction k with
  | zero => rfl
  | succ n ih =>
    rw [List.replicate_succ, exMapM, renderDay_zero, exBind_ok, ih, exBind_ok,
      List.replicate_succ]

theorem exMapM_renderDay_days {y : Int} {m : Nat} {rd : List Entry} :
    ∀ {ds : List Nat} {cs : List (Option Cell)}, (∀ d ∈ ds, 0 < d) →
      exMapM (renderDay y m rd) ds = .ok cs →
      (cs.filterMap id).map Cell.day = ds ∧ cs.length = ds.length := by
  intro ds
  induction ds with
  | nil =>
    intro cs _ h
    cases Except.ok.inj h
    simp
  | cons d ds ih =>
    intro cs hpos h
    obtain ⟨oc, cs2, hf, hl, hres⟩ := exMapM_cons_ok h
    subst hres
    obtain ⟨c, hoc, hcday⟩ :=
      renderDay_pos_ok (hpos d (List.mem_cons_self d ds)) hf
    subst hoc
    obtain ⟨ih1, ih2⟩ := ih (fun x hx => hpos x (List.mem_cons_of_mem d hx)) hl
    constructor
    · rw [List.filterMap_cons]
      simp only [id]
      rw [List.map_cons, ih1, hcday]
    · simp [ih2]

theorem chunkGo_flatten :
    ∀ (fuel : Nat) (l : List Nat), l.length ≤ fuel →
      (chunkGo fuel l).flatten = l := by
  intro fuel
  induction fuel with
  | zero =>
    intro l hl
    cases l with
    | nil => rfl
    | cons a as => exact absurd hl (by simp)
  | succ n ih =>
    intro l hl
    cases l with
    | nil => rfl
    | cons a as =>
      rw [show chunkGo (n + 1) (a :: as) =
            (a :: as).take 7 :: chunkGo n ((a :: as).drop 7) from rfl,
        List.flatten_cons, ih ((a :: as).drop 7)
          (by rw [List.length_drop]; simp at hl ⊢; omega)]
      exact List.take_append_drop 7 (a :: as)

theorem monthcalendar_flatten (y : Int) (m : Nat) :
    (monthcalendar y m).flatten = monthDays y m := by
  rw [monthcalendar, chunkGo_flatten _ _ (le_refl _)]

theorem renderDay_pos_eq {y : Int} {m : Nat} {rd : List Entry} {day : Nat}
    (hday : 0 < day) {b : Bool} {its : List RItem}
    (hacc : collectItems (m : Int) (day : Int) rd = .ok (b, its)) :
    renderDay y m rd day =
      .ok (some ⟨day,
        if (b || weekday y m day == 6) = true then PColor.red else PColor.black,
        its⟩) := by
  rw [renderDay, if_pos hday, hacc, exBind_ok]
  dsimp only
  by_cases hcond : (b || weekday y m day == 6) = true
  · simp only [if_pos hcond, pyListGet_colortable_one, exBind_ok]
  · simp only [if_neg hcond, pyListGet_colortable_zero, exBind_ok]

/-- Claim C7: if the annotation source file cannot be opened, `loadDays`
returns the empty entry list without raising, and the grid then renders every
day cell with no items and with the day number highlighted (red) exactly when
its weekday is the rest day (Sunday, weekday 6). -/
theorem c7_missing_file (funs : Char → Option (Str → Except PyErr (Int × Int))) :
    loadDays none funs = .ok [] ∧
    ∀ (y : Int) (m d : Nat), 0 < d →
      renderDay y m [] d =
        .ok (some ⟨d,
          if (weekday y m d == 6) = true then PColor.red else PColor.black,
          []⟩) := by
  refine ⟨rfl, fun y m d hd => ?_⟩
  have h := @renderDay_pos_eq y m [] d hd false [] rfl
  simpa using h

/-- Claim C7 witness: with the file missing the parse is empty, and October 6,
2024 (a Sunday) is highlighted with no items. -/
theorem c7_missing_file_witness :
    loadDays none (defaultFuns 2024) = .ok [] ∧
    renderDay 2024 10 [] 6 = .ok (some ⟨6, PColor.red, []⟩) := by
  have h := c7_missing_file (defaultFuns 2024)
  refine ⟨h.1, (h.2 2024 10 6 (by decide)).trans ?_⟩
  decide

/-- Claim C10: a line that is empty after stripping makes `loadDays` raise
IndexError at the `line[0] == '#'` test, aborting the whole parse — blank
lines are an error, never silently skipped. -/
theorem c10_blank_line (funs : Char → Option (Str → Except PyErr (Int × Int)))
    (raw : Str) (hblank : pyStripLine raw = []) :
    parseLine funs raw = .error .indexError ∧
    ∀ (lines : List Str), raw ∈ lines →
      ∀ res, loadDays (some lines) funs ≠ .ok res := by
  constructor
  · rw [parseLine, hblank]
  · intro lines hmem res hok
    rw [loadDays] at hok
    cases hm : exMapM (parseLine funs) lines with
    | error e =>
      rw [hm] at hok
      exact absurd hok (by simp [Except.map])
    | ok rss =>
      obtain ⟨b, hb⟩ := exMapM_ok_of_mem hm hmem
      rw [parseLine, hblank] at hb
      exact absurd hb (by simp)

/-- Claim C10 witness: a file consisting of one blank line fails the parse
with IndexError. -/
theorem c10_blank_line_witness :
    parseLine noFuns [] = .error .indexError ∧
    loadDays (some [[]]) noFuns ≠ .ok [] := by
  have h := c10_blank_line noFuns [] rfl
  exact ⟨h.1, h.2 [[]] (by simp) []⟩

/-- Claim C5 (amended): for a suffix accepted by `int()` (an optionally
signed decimal integer), the movable-feast resolver returns Easter Sunday of
the year shifted by exactly that many days, rolling over month boundaries;
the empty suffix is not defaulted to 0 but rejected with ValueError. -/
theorem c5_easter_offset (y : Int) (s : Str) (n : Int)
    (hn : pyInt s = some n) :
    easter y s = .ok (((addDays (easterSunday y) n).d : Int),
                      ((addDays (easterSunday y) n).m : Int)) ∧
    easter y [] = .error .valueError := by
  constructor
  · rw [easter, pyIntE, hn, exBind_ok]
  · rfl

/-- Claim C5 counterexample: the claim's "default offset of 0 when the suffix
is empty" fails — `easter 2024 ""` raises ValueError from `int('')` instead
of returning Easter Sunday (31.3.2024), which the explicit suffix "0"
produces. -/
theorem c5_empty_suffix_counterexample :
    easter 2024 [] = .error .valueError ∧
    easter 2024 ['0'] = .ok (31, 3) := by
  exact ⟨rfl, by decide⟩

/-- Claim C5 witness: an offset of one day from Easter Sunday 2024
(March 31) rolls over into April 1. -/
theorem c5_easter_offset_witness : easter 2024 ['1'] = .ok (1, 4) := by
  exact ((c5_easter_offset 2024 ['1'] 1 (by decide)).1).trans (by decide)

/-- Claim C3 (amended): the payload is split on `/` into parts, each
stripped, each becoming one entry with the line's date, in order; a part with
no `:` keeps style 0 and its whole text, a part with exactly one `:` has the
prefix parsed as the style code and the remainder as text, and a part with
two or more `:` is a ValueError (the two-variable unpack of `split(':')`
fails), not an entry with the remainder as text. -/
theorem c3_payload_parts (dv : DateVal) (md : Int × Int)
    (hdv : dateToPair dv = .ok md) :
    (∀ part t : Str, pySplit ':' (pyStrip part) = [t] →
        parsePart dv part = .ok ⟨md, 0, t⟩) ∧
    (∀ (part s p : Str) (n : Int), pySplit ':' (pyStrip part) = [s, p] →
        pyInt s = some n → parsePart dv part = .ok ⟨md, n, p⟩) ∧
    (∀ (part s p q : Str) (r : List Str),
        pySplit ':' (pyStrip part) = s :: p :: q :: r →
        parsePart dv part = .error .valueError) ∧
    (∀ (parts : List Str) (es : List Entry),
        exMapM (parsePart dv) parts = .ok es →
        List.Forall₂ (fun p e => parsePart dv p = .ok e) parts es ∧
          ∀ e ∈ es, e.date = md) := by
  refine ⟨fun part t h => parsePart_one hdv h,
          fun part s p n h hn => parsePart_two hdv h hn,
          fun part s p q r h => parsePart_many h,
          fun parts es h => ⟨exMapM_ok_forall₂ h, fun e he => ?_⟩⟩
  obtain ⟨p, _, hp⟩ := exMapM_mem_ok h he
  exact parsePart_ok_date hdv hp

/-- Claim C3 counterexample: a part containing two colons does not yield an
entry with the text after the first colon — the whole parse fails with
ValueError. -/
theorem c3_two_colon_counterexample :
    parseLine noFuns "25.3 1:a:b".toList = .error .valueError ∧
    parseLine noFuns "25.3 1:a:b".toList ≠
      .ok [⟨(3, 25), 1, "a:b".toList⟩] := by
  exact ⟨rfl, by decide⟩

/-- Claim C3 witness: the payload `1:Text A / Text B` yields, in order, an
entry with style 1 and text `Text A` and an entry with style 0 and text
`Text B`, both dated 25.3. -/
theorem c3_payload_parts_witness :
    parsePart (DateVal.strs "25".toList "3".toList) "1:Text A".toList =
      .ok ⟨(3, 25), 1, "Text A".toList⟩ ∧
    parseLine noFuns "25.3 1:Text A / Text B".toList =
      .ok [⟨(3, 25), 1, "Text A".toList⟩, ⟨(3, 25), 0, "Text B".toList⟩] := by
  refine ⟨(c3_payload_parts (DateVal.strs "25".toList "3".toList) (3, 25)
    (by decide)).2.1 "1:Text A".toList "1".toList "Text A".toList 1
    (by decide) (by decide), by decide⟩

/-- Claim C8 (amended): a style-code prefix that `int()` cannot parse fails
the parse with ValueError, but an out-of-range integer prefix is accepted at
parse time (the style table's 0..3 range is not checked by `loadDays`); the
range violation only surfaces later, when `drawGrid` indexes `colortable`
with the entry's style and raises IndexError. -/
theorem c8_style_codes (dv : DateVal) (part s p : Str) :
    (pySplit ':' (pyStrip part) = [s, p] → pyInt s = none →
        parsePart dv part = .error .valueError) ∧
    (∀ (md : Int × Int) (n : Int), dateToPair dv = .ok md →
        pySplit ':' (pyStrip part) = [s, p] → pyInt s = some n → 4 ≤ n →
        parsePart dv part = .ok ⟨md, n, p⟩) ∧
    (∀ (month day st : Int) (txt : Str), 4 ≤ st →
        collectItems month day [⟨(month, day), st, txt⟩] =
          .error .indexError) := by
  refine ⟨fun h hn => parsePart_two_badstyle h hn,
          fun md n hdv h hn _ => parsePart_two hdv h hn,
          fun month day st txt hst => ?_⟩
  have hget : pyListGet colortable st = .error .indexError := by
    rw [pyListGet, dif_neg, dif_neg]
    · rintro ⟨h1, h2, h3⟩
      have hlen : colortable.length = 4 := rfl
      rw [hlen] at h3
      omega
    · rintro ⟨h1, h2⟩
      have hlen : colortable.length = 4 := rfl
      rw [hlen] at h2
      omega
  rw [collectItems, if_pos (by rfl), hget, exBind_error]

/-- Claim C8 counterexample: the parse succeeds and produces an entry with
the out-of-range style code 7 (the style table has only indices 0..3),
contradicting "no entry with an out-of-range style code is ever produced by a
successful parse". -/
theorem c8_out_of_range_counterexample :
    parseLine noFuns "25.3 7:X".toList = .ok [⟨(3, 25), 7, "X".toList⟩] ∧
    colortable.length = 4 := by
  exact ⟨rfl, rfl⟩

/-- Claim C8 witness: a non-integer prefix fails, an out-of-range integer
prefix yields an entry, and rendering that entry fails with IndexError. -/
theorem c8_style_codes_witness :
    parsePart (DateVal.ints 25 3) "abc:Q".toList = .error .valueError ∧
    parsePart (DateVal.ints 25 3) "7:Q".toList = .ok ⟨(3, 25), 7, "Q".toList⟩ ∧
    collectItems 3 25 [⟨(3, 25), 7, "Q".toList⟩] = .error .indexError := by
  have h := c8_style_codes (DateVal.ints 25 3) "abc:Q".toList "abc".toList
    "Q".toList
  have h2 := c8_style_codes (DateVal.ints 25 3) "7:Q".toList "7".toList
    "Q".toList
  exact ⟨h.1 (by decide) (by decide),
         h2.2.1 (3, 25) 7 (by decide) (by decide) (by decide) (by decide),
         h2.2.2 3 25 7 "Q".toList (by decide)⟩

/-- Claim C9: the code-`T` resolver succeeds only for the four recognized
sub-codes `se`, `ss`, `ae`, `ws`; any other sub-code fails with the KeyError
on `day_table[what]` (the unknown-astronomical-code error), never silently
defaulting; and a successful lookup returns exactly the precomputed table
value. -/
theorem c9_astro_table (year : Int) (what : Str) :
    ((table year what).isOk = true →
      what = "se".toList ∨ what = "ss".toList ∨
        what = "ae".toList ∨ what = "ws".toList) ∧
    (what ≠ "se".toList → what ≠ "ss".toList → what ≠ "ae".toList →
      what ≠ "ws".toList →
      table year what = .error (.keyErrorAstro what)) ∧
    (∀ dm, table year what = .ok dm →
      ∃ tbl, assoc what day_table = some tbl ∧ assoc year tbl = some dm) := by
  have hsome : ∀ tbl, assoc what day_table = some tbl →
      what = "se".toList ∨ what = "ss".toList ∨
        what = "ae".toList ∨ what = "ws".toList := by
    intro tbl h
    rw [day_table, assoc] at h
    by_cases h1 : "se".toList = what
    · exact .inl h1.symm
    rw [if_neg h1, assoc] at h
    by_cases h2 : "ss".toList = what
    · exact .inr (.inl h2.symm)
    rw [if_neg h2, assoc] at h
    by_cases h3 : "ae".toList = what
    · exact .inr (.inr (.inl h3.symm))
    rw [if_neg h3, assoc] at h
    by_cases h4 : "ws".toList = what
    · exact .inr (.inr (.inr h4.symm))
    rw [if_neg h4, assoc] at h
    exact absurd h (by simp)
  refine ⟨?_, ?_, ?_⟩
  · intro hok
    cases ht : assoc what day_table with
    | none =>
      rw [table, ht] at hok
      exact absurd hok (by simp [Except.isOk, Except.toBool])
    | some tbl => exact hsome tbl ht
  · intro hn1 hn2 hn3 hn4
    have hnone : assoc what day_table = none := by
      rw [day_table, assoc, if_neg (fun hh => hn1 hh.symm), assoc,
        if_neg (fun hh => hn2 hh.symm), assoc,
        if_neg (fun hh => hn3 hh.symm), assoc,
        if_neg (fun hh => hn4 hh.symm), assoc]
    rw [table, hnone]
  · intro dm hdm
    rw [table] at hdm
    cases ht : assoc what day_table with
    | none =>
      rw [ht] at hdm
      replace hdm : (Except.error (PyErr.keyErrorAstro what) :
          Except PyErr (Int × Int)) = .ok dm := hdm
      exact absurd hdm (by simp)
    | some tbl =>
      rw [ht] at hdm
      replace hdm : (match assoc year tbl with
          | none => Except.error (PyErr.keyErrorYear year)
          | some v => Except.ok v) = Except.ok dm := hdm
      cases hy : assoc year tbl with
      | none =>
        rw [hy] at hdm
        replace hdm : (Except.error (PyErr.keyErrorYear year) :
            Except PyErr (Int × Int)) = .ok dm := hdm
        exact absurd hdm (by simp)
      | some dm2 =>
        rw [hy] at hdm
        replace hdm : (Except.ok dm2 : Except PyErr (Int × Int)) = .ok dm := hdm
        exact ⟨tbl, rfl, by rw [hy, Except.ok.inj hdm]⟩

/-- Claim C9 witness: an unrecognized sub-code fails with the designated
error, and a recognized one returns the table value. -/
theorem c9_astro_table_witness :
    table 2012 "xx".toList = .error (.keyErrorAstro "xx".toList) ∧
    table 2012 "ss".toList = .ok (20, 6) := by
  have h := c9_astro_table 2012 "xx".toList
  exact ⟨h.2.1 (by decide) (by decide) (by decide) (by decide), by decide⟩

/-- Claim C4: a line whose date token contains a `.` is parsed from the
literal day and month integers alone — the result does not depend on the
resolver table (hence not on the year), and every entry produced carries
exactly the literal `(month, day)` pair `(int(MM), int(DD))`. -/
theorem c4_literal_dates
    (funs funs2 : Char → Option (Str → Except PyErr (Int × Int)))
    (raw tok : Str) (rest : List Str) (d0 d1 : Str) (ds : List Str)
    (dv0 mv0 : Int)
    (hws : pySplitWS (pyStripLine raw) = tok :: rest)
    (hdot : pySplit '.' tok = d0 :: d1 :: ds)
    (h0 : pyInt d0 = some dv0) (h1 : pyInt d1 = some mv0) :
    parseLine funs raw = parseLine funs2 raw ∧
    (∀ es, parseLine funs raw = .ok es → ∀ e ∈ es, e.date = (mv0, dv0)) := by
  have hdv : dateToPair (DateVal.strs d0 d1) = .ok (mv0, dv0) := by
    have e1 : pyIntE d1 = .ok mv0 := by rw [pyIntE, h1]
    have e0 : pyIntE d0 = .ok dv0 := by rw [pyIntE, h0]
    simp only [dateToPair, e1, e0, exBind_ok]
  rcases hline : pyStripLine raw with _ | ⟨c, cs⟩
  · rw [hline] at hws
    rw [show pySplitWS ([] : Str) = [] from rfl] at hws
    exact absurd hws (by simp)
  · rw [hline] at hws
    by_cases hc : c = '#'
    · have hcom : ∀ (fs : Char → Option (Str → Except PyErr (Int × Int))),
          parseLine fs raw = .ok [] := by
        intro fs
        rw [parseLine, hline]
        simp only [if_pos hc]
      refine ⟨(hcom funs).trans (hcom funs2).symm, ?_⟩
      intro es hes e he
      rw [hcom funs] at hes
      cases Except.ok.inj hes
      simp at he
    · have hpl : ∀ (fs : Char → Option (Str → Except PyErr (Int × Int))),
          parseLine fs raw =
            exMapM (parsePart (DateVal.strs d0 d1))
              (pySplit '/' (pyJoinSpace rest)) := by
        intro fs
        rw [parseLine, hline]
        simp only [if_neg hc, hws, hdot, exBind_ok]
      refine ⟨(hpl funs).trans (hpl funs2).symm, ?_⟩
      intro es hes e he
      rw [hpl funs] at hes
      obtain ⟨p, _, hp⟩ := exMapM_mem_ok hes he
      exact parsePart_ok_date hdv hp

/-- Claim C4 witness: the line `25.3 X` parses identically under the 2024 and
2025 resolver tables, to a single entry dated month 3, day 25. -/
theorem c4_literal_dates_witness :
    parseLine (defaultFuns 2024) "25.3 X".toList =
      parseLine (defaultFuns 2025) "25.3 X".toList ∧
    parseLine (defaultFuns 2024) "25.3 X".toList =
      .ok [⟨(3, 25), 0, "X".toList⟩] := by
  have h := c4_literal_dates (defaultFuns 2024) (defaultFuns 2025)
    "25.3 X".toList "25.3".toList ["X".toList] "25".toList "3".toList []
    25 3 (by decide) (by decide) (by decide) (by decide)
  exact ⟨h.1, by decide⟩

/-- Claim C1: a day cell's number is drawn in the alternate (red) color if
and only if some matching entry carries the reserved holiday style code 1 or
the cell's date falls on weekday 6 (Sunday); each trigger alone suffices.
Stated both for the per-cell pass `renderDay` and for every cell of the full
grid. -/
theorem c1_highlight (y : Int) (m : Nat) (reddays : List Entry) :
    (∀ (d : Nat) (c : Cell), renderDay y m reddays d = .ok (some c) →
      (c.numColor = PColor.red ↔
        ((∃ e ∈ reddays, e.date = ((m : Int), (d : Int)) ∧ e.style = 1) ∨
          weekday y m d = 6))) ∧
    (∀ (cells : List (Option Cell)) (c : Cell),
      gridCells y m reddays = .ok cells → some c ∈ cells →
      (c.numColor = PColor.red ↔
        ((∃ e ∈ reddays, e.date = ((m : Int), (c.day : Int)) ∧ e.style = 1) ∨
          weekday y m c.day = 6))) := by
  have hmain : ∀ (d : Nat) (c : Cell), renderDay y m reddays d = .ok (some c) →
      (c.numColor = PColor.red ↔
        ((∃ e ∈ reddays, e.date = ((m : Int), (d : Int)) ∧ e.style = 1) ∨
          weekday y m d = 6)) := by
    intro d c h
    obtain ⟨hday, hcday, b, hacc, hcol⟩ := renderDay_some_inv h
    have hiff := collectItems_isred (m : Int) (d : Int) reddays b c.items hacc
    rw [hcol]
    by_cases hcond : (b || weekday y m d == 6) = true
    · rw [if_pos hcond]
      constructor
      · intro _
        rcases Bool.or_eq_true_iff.mp hcond with hb | hw
        · exact .inl (hiff.mp hb)
        · exact .inr (beq_iff_eq.mp hw)
      · intro _
        rfl
    · rw [if_neg hcond]
      constructor
      · intro hbad
        exact absurd hbad (by decide)
      · intro hor
        exfalso
        apply hcond
        rcases hor with he | hw
        · exact Bool.or_eq_true_iff.mpr (.inl (hiff.mpr he))
        · exact Bool.or_eq_true_iff.mpr (.inr (beq_iff_eq.mpr hw))
  refine ⟨hmain, ?_⟩
  intro cells c hcells hmem
  obtain ⟨d, _, hrd⟩ := exMapM_mem_ok hcells hmem
  have hd := (renderDay_some_inv hrd).2.1
  subst hd
  exact hmain c.day c hrd

/-- Claim C1 witness: October 1, 2024 (a Tuesday) is highlighted because of a
matching style-1 entry, and October 6, 2024 (a Sunday) is highlighted with no
entries at all. -/
theorem c1_highlight_witness :
    ((Cell.mk 1 PColor.red [⟨"X".toList, PColor.red⟩]).numColor = PColor.red ↔
      ((∃ e ∈ [Entry.mk (10, 1) 1 "X".toList],
          e.date = ((10 : Int), (1 : Int)) ∧ e.style = 1) ∨
        weekday 2024 10 1 = 6)) ∧
    ((Cell.mk 6 PColor.red []).numColor = PColor.red ↔
      ((∃ e ∈ ([] : List Entry),
          e.date = ((10 : Int), (6 : Int)) ∧ e.style = 1) ∨
        weekday 2024 10 6 = 6)) := by
  exact ⟨(c1_highlight 2024 10 [Entry.mk (10, 1) 1 "X".toList]).1 1
      (Cell.mk 1 PColor.red [⟨"X".toList, PColor.red⟩]) (by decide),
    (c1_highlight 2024 10 []).1 6 (Cell.mk 6 PColor.red []) (by decide)⟩

theorem monthDays_eq (y : Int) (m : Nat) :
    monthDays y m =
      List.replicate ((weekday y m 1).emod 7).toNat 0 ++
        (List.range (daysInMonth y m)).map (· + 1) ++
        List.replicate
          (((0 : Int) - weekday y m 1 - (daysInMonth y m : Int)).emod 7).toNat
          0 := rfl

theorem filterMap_id_replicate_none (k : Nat) :
    (List.replicate k (none : Option Cell)).filterMap id = [] := by
  induction k with
  | zero => rfl
  | succ n ih =>
    rw [List.replicate_succ]
    rw [show (none :: List.replicate n (none : Option Cell)).filterMap id =
      (List.replicate n (none : Option Cell)).filterMap id from rfl]
    exact ih

theorem take_append_replicate (A : Nat) (x : α) (l : List α) :
    (List.replicate A x ++ l).take A = List.replicate A x := by
  have h := List.take_left (List.replicate A x) l
  rwa [List.length_replicate] at h

theorem drop_append_replicate (A : Nat) (x : α) (l : List α) :
    (List.replicate A x ++ l).drop A = l := by
  have h := List.drop_left (List.replicate A x) l
  rwa [List.length_replicate] at h

/-- Claim C2: for a valid month the grid contains exactly `daysInMonth` cells
with a day number — namely 1..last day, in order — its total size matches the
month-calendar layout, and the padding positions before day 1 and after the
last day hold no cell at all (no box, number, or items is drawn for them). -/
theorem c2_grid_shape (y : Int) (m : Nat) (rd : List Entry)
    (cells : List (Option Cell)) (hm1 : 1 ≤ m) (hm2 : m ≤ 12)
    (hcells : gridCells y m rd = .ok cells) :
    (cells.filterMap id).map Cell.day =
        (List.range (daysInMonth y m)).map (· + 1) ∧
    cells.length = (monthDays y m).length ∧
    (∀ oc ∈ cells.take (weekday y m 1).toNat, oc = none) ∧
    (∀ oc ∈ cells.drop ((weekday y m 1).toNat + daysInMonth y m),
      oc = none) := by
  rw [gridCells, monthcalendar_flatten, monthDays_eq] at hcells
  obtain ⟨r12, r3, h12, h3, hsplit⟩ := exMapM_append_ok hcells
  obtain ⟨r1, r2, h1, h2, hsplit2⟩ := exMapM_append_ok h12
  have hr1 : r1 = List.replicate ((weekday y m 1).emod 7).toNat none :=
    Except.ok.inj (h1.symm.trans (exMapM_renderDay_replicate0 y m rd _))
  have hr3 : r3 = List.replicate
      (((0 : Int) - weekday y m 1 - (daysInMonth y m : Int)).emod 7).toNat
      none :=
    Except.ok.inj (h3.symm.trans (exMapM_renderDay_replicate0 y m rd _))
  have hpos : ∀ d ∈ (List.range (daysInMonth y m)).map (· + 1), 0 < d := by
    intro d hd
    rw [List.mem_map] at hd
    obtain ⟨i, _, hi⟩ := hd
    omega
  obtain ⟨hr2map, hr2len⟩ := exMapM_renderDay_days hpos h2
  have hlen2 : r2.length = daysInMonth y m := by
    rw [hr2len, List.length_map, List.length_range]
  have hwd0 : (weekday y m 1).emod 7 = weekday y m 1 := by
    rw [weekday]
    exact Int.emod_emod_of_dvd _ dvd_rfl
  have hwd : ((weekday y m 1).emod 7).toNat = (weekday y m 1).toNat := by
    rw [hwd0]
  subst hsplit hsplit2 hr1 hr3
  refine ⟨?_, ?_, ?_, ?_⟩
  · rw [List.filterMap_append, List.filterMap_append,
      filterMap_id_replicate_none, filterMap_id_replicate_none,
      List.nil_append, List.append_nil, hr2map]
  · rw [monthDays_eq]
    simp only [List.length_append, List.length_replicate, hlen2,
      List.length_map, List.length_range]
  · rw [List.append_assoc, ← hwd, take_append_replicate]
    intro oc hoc
    exact (List.mem_replicate.mp hoc).2
  · rw [List.append_assoc, ← hwd, ← List.drop_drop, drop_append_replicate,
      ← hlen2, List.drop_left]
    intro oc hoc
    exact (List.mem_replicate.mp hoc).2

/-- Claim C2 witness: February 2024 (29 days) renders as three empty padding
cells, day cells 1..29, then three empty padding cells. -/
theorem c2_grid_shape_witness :
    (febCells.filterMap id).map Cell.day =
      (List.range (daysInMonth 2024 2)).map (· + 1) ∧
    febCells.length = (monthDays 2024 2).length := by
  have h := c2_grid_shape 2024 2 [] febCells (by decide) (by decide)
    (by decide)
  exact ⟨h.1, h.2.1⟩

/-- Claim C6: for months in 1..12, the rendered `(year, month)` sequence for
range `MM-NN` has the claimed length and, position by position, runs through
`(Y, MM), ..., (Y, 12), (Y+1, 1), ..., (Y+1, NN)` when `NN < MM` and
`(Y, MM), ..., (Y, NN)` otherwise; a bare single month renders exactly one
pair. -/
theorem c6_month_range (y s e : Int) (hs1 : 1 ≤ s) (hs2 : s ≤ 12)
    (he1 : 1 ≤ e) (he2 : e ≤ 12) :
    (expandRange y s e).length =
        (if s ≤ e then e - s + 1 else 13 - s + e).toNat ∧
    (∀ k : Nat, k < (expandRange y s e).length →
      (expandRange y s e).get? k =
        some (if s + (k : Int) ≤ 12 then (y, s + (k : Int))
              else (y + 1, s + (k : Int) - 12))) ∧
    (∀ (mv : Int) (ms : Str), pySplit '-' ms = [ms] → pyInt ms = some mv →
      monthPages y ms = .ok [(y, mv)]) := by
  refine ⟨?_, ?_, ?_⟩
  · rw [expandRange]
    by_cases hw : e < s
    · rw [if_pos hw, if_neg (by omega)]
      rw [List.length_append, List.length_map, List.length_map,
        List.length_range, List.length_range]
      omega
    · rw [if_neg hw, if_pos (by omega)]
      rw [List.length_map, List.length_range]
  · intro k hk
    rw [expandRange] at hk ⊢
    by_cases hw : e < s
    · rw [if_pos hw] at hk ⊢
      rw [List.length_append, List.length_map, List.length_map,
        List.length_range, List.length_range] at hk
      by_cases hk1 : k < (12 - s + 1).toNat
      · rw [List.get?_append
          (by rw [List.length_map, List.length_range]; exact hk1)]
        rw [List.get?_map, List.get?_range hk1, if_pos (by omega)]
        rfl
      · rw [List.get?_append_right
          (by rw [List.length_map, List.length_range]; omega)]
        rw [List.length_map, List.length_range]
        have hk2 : k - (12 - s + 1).toNat < e.toNat := by omega
        rw [List.get?_map, List.get?_range hk2, if_neg (by omega)]
        have hcast : ((k - (12 - s + 1).toNat : Nat) : Int) =
            (k : Int) - (13 - s) := by omega
        show some (y + 1, 1 + ((k - (12 - s + 1).toNat : Nat) : Int)) =
          some (y + 1, s + (k : Int) - 12)
        rw [hcast]
        have harith : (1 : Int) + ((k : Int) - (13 - s)) = s + (k : Int) - 12 := by
          ring
        rw [harith]
    · rw [if_neg hw] at hk ⊢
      rw [List.length_map, List.length_range] at hk
      rw [List.get?_map, List.get?_range hk, if_pos (by omega)]
      rfl
  · intro mv ms hsplit hmv
    rw [monthPages, hsplit]
    simp only [pyIntE, hmv, exBind_ok]

/-- Claim C6 witness: `11-02` starting in 2024 renders four pages, the third
of which is January 2025, and the bare month `05` renders exactly May 2024. -/
theorem c6_month_range_witness :
    (expandRange 2024 11 2).length = 4 ∧
    (expandRange 2024 11 2).get? 2 = some (2025, 1) ∧
    monthPages 2024 "05".toList = .ok [(2024, 5)] := by
  have h := c6_month_range 2024 11 2 (by decide) (by decide) (by decide)
    (by decide)
  refine ⟨h.1.trans (by decide), ?_, h.2.2 5 "05".toList (by decide) (by decide)⟩
  have h2 := h.2.1 2 (by rw [h.1]; decide)
  rw [h2]
  decide

end PyCalendarGen
